import Mathlib

/-!
Shallow embedding of the in-process publish/subscribe event bus of
`golang-utils` (package `golang_utils`, file with `Bus`, `Event`,
`DefaultEvent`, `Registration`, dead-letter events).

Modelling conventions, stated once:
* Go strings are Lean `String`; `strings.HasPrefix` and
  `strings.TrimLeft(s, "!")` are implemented below on the character list.
* Go `error` values are `Option String` (the message); `nil` is `none`.
* Handlers (`func(Event) error`) are opaque to the bus; they are named by
  numeric ids and interpreted by an explicit environment
  `henv : Nat → Event → Option String`.
* `reflect.TypeOf(x).String()` is the `etype` string tag carried by every
  event value (e.g. `"*golang_utils.TestEvent"`); Go type equality is
  equality of these tags.
* The Go `map[string]*Registration` is an insertion-ordered association
  list; Go map iteration order is unspecified, the model iterates in
  insertion order.
* Handler goroutines of one registration are joined by `errgroup.Wait`
  before the loop advances; the model runs them sequentially in launch
  order, which is one legal schedule.  `errgroup` keeps the first error.
* `Bus.Send` recurses (dead-letter re-publication).  The model is
  fuel-indexed: `sendFuel` returns `none` when the recursion exceeds the
  fuel.  A Go execution of `Send` terminates exactly when some fuel bound
  suffices.
* The semantics additionally records an invocation log (handler id and
  event of every handler call), used to state which handlers fire.
-/

set_option maxRecDepth 8000

namespace GolangUtils

mutual
/-- A Go `any` value as stored in an event `DataMap` by this repository:
strings, wrapped events (the `"event"` entry of a dead-letter), and handler
slices (the `"handlers"` entry of a dead-letter). -/
inductive GoVal : Type where
  | vStr : String → GoVal
  | vEvent : Event → GoVal
  | vHandlers : List Nat → GoVal

/-- A Go event value: the concrete runtime type tag (what
`reflect.TypeOf` reports, e.g. `"*golang_utils.TestEvent"`) together with
the embedded `DefaultEvent` fields `Msg`, `TypeName`, `DataMap`, `Err`,
`Dmn`. -/
inductive Event : Type where
  | mk : (etype : String) → (msg : String) → (typeName : String) →
      (dataMap : List (String × GoVal)) → (errv : Option String) →
      (dmn : String) → Event
end

def Event.etype : Event → String
  | .mk t _ _ _ _ _ => t

def Event.msgField : Event → String
  | .mk _ m _ _ _ _ => m

def Event.typeNameField : Event → String
  | .mk _ _ n _ _ _ => n

def Event.dataMap : Event → List (String × GoVal)
  | .mk _ _ _ d _ _ => d

def Event.errField : Event → Option String
  | .mk _ _ _ _ e _ => e

def Event.dmnField : Event → String
  | .mk _ _ _ _ _ d => d

/-- `DefaultEvent.Name()`: returns the `TypeName` field. -/
def Event.Name (e : Event) : String := e.typeNameField

/-- `DefaultEvent.Data()`. -/
def Event.Data (e : Event) : List (String × GoVal) := e.dataMap

/-- `DefaultEvent.Message()`. -/
def Event.Message (e : Event) : String := e.msgField

/-- Go map lookup `e.DataMap[key]` on the association-list model (a nil
map is the empty list; lookup then always misses). -/
def mapGet : List (String × GoVal) → String → Option GoVal
  | [], _ => none
  | (k, v) :: rest, key => if k = key then some v else mapGet rest key

/-- `DefaultEvent.Get(key)`: value if present, otherwise the `"???"`
sentinel. -/
def Event.Get (e : Event) (key : String) : GoVal :=
  match mapGet e.dataMap key with
  | some v => v
  | none => GoVal.vStr "???"

/-- `DefaultEvent.Error()`. -/
def Event.Error (e : Event) : Option String := e.errField

/-- `DefaultEvent.Domain()`. -/
def Event.Domain (e : Event) : String := e.dmnField

/-- `DefaultEvent.GetDomain()`. -/
def Event.GetDomain (e : Event) : GoVal := e.Get "domain"

/-- `strings.HasPrefix(s, pre)` on character lists. -/
def listPfx : List Char → List Char → Bool
  | _, [] => true
  | [], _ :: _ => false
  | c :: cs, d :: ds => if c = d then listPfx cs ds else false

/-- `strings.HasPrefix` on strings. -/
def strHasPfx (s pre : String) : Bool := listPfx s.data pre.data

/-- `strings.TrimLeft(s, "!")` on character lists: drop every leading
`'!'`. -/
def dropBangs : List Char → List Char
  | [] => []
  | c :: cs => if c = '!' then dropBangs cs else c :: cs

/-- `strings.TrimLeft(s, "!")` on strings. -/
def trimLeftBang (s : String) : String := String.mk (dropBangs s.data)

/-- `DefaultEvent.Matches(filter)`: `"*"` matches everything; a filter
starting with `"!"` is a negated-prefix test on the filter with leading
`'!'` removed; otherwise a plain prefix test on the event name. -/
def Event.Matches (e : Event) (filter : String) : Bool :=
  if filter = "*" then true
  else if strHasPfx filter "!" then
    (if strHasPfx e.Name (trimLeftBang filter) then false else true)
  else strHasPfx e.Name filter

/-- A `Registration`: name filter, optional prototype event (nil means
"any type"), ordered handler list (handler ids). -/
structure Registration where
  filter : String
  event : Option Event
  handlers : List Nat

/-- `NewRegistration`. -/
def NewRegistration (filter : String) (event : Option Event) (handler : Nat) :
    Registration :=
  { filter := filter, event := event, handlers := [handler] }

/-- `Registration.uniqueName()`: the bare filter for a nil prototype,
otherwise `filter + "-" + reflect.TypeOf(event).String()`. -/
def Registration.uniqueName (r : Registration) : String :=
  match r.event with
  | none => r.filter
  | some e => r.filter ++ "-" ++ e.etype

/-- The bus: the registration table (keyed by `uniqueName`, modelled as an
insertion-ordered association list) and the cumulative sent counter. -/
structure Bus where
  handlers : List (String × Registration)
  sent : Nat

/-- `newBus()`. -/
def newBus : Bus := { handlers := [], sent := 0 }

/-- Go map lookup in the registration table. -/
def lookupReg : List (String × Registration) → String → Option Registration
  | [], _ => none
  | (k, r) :: rest, key => if k = key then some r else lookupReg rest key

/-- In-place append of handlers to the entry with the given key
(`reg.handlers = append(reg.handlers, registration.handlers...)`). -/
def appendHandlersAt :
    List (String × Registration) → String → List Nat →
      List (String × Registration)
  | [], _, _ => []
  | (k, r) :: rest, key, hs =>
    if k = key then (k, { r with handlers := r.handlers ++ hs }) :: rest
    else (k, r) :: appendHandlersAt rest key hs

/-- `Bus.RegisterHandler`: merge into an existing entry with the same
`uniqueName`, or insert a new entry. -/
def Bus.RegisterHandler (b : Bus) (r : Registration) : Bus :=
  match lookupReg b.handlers r.uniqueName with
  | some _ => { b with handlers := appendHandlersAt b.handlers r.uniqueName r.handlers }
  | none => { b with handlers := b.handlers ++ [(r.uniqueName, r)] }

/-- `Bus.Register`. -/
def Bus.Register (b : Bus) (filter : String) (emptyEvent : Option Event)
    (handler : Nat) : Bus :=
  b.RegisterHandler (NewRegistration filter emptyEvent handler)

/-- `Bus.Registrations()` (the values of the table, which is also the
sequence `Bus.Send` ranges over). -/
def regsVals (t : List (String × Registration)) : List Registration :=
  t.map (fun p => p.2)

/-- `Bus.Registrations()`. -/
def Bus.Registrations (b : Bus) : List Registration := regsVals b.handlers

/-- `Bus.ClearRegistrations()`. -/
def Bus.ClearRegistrations (b : Bus) : Bus := { b with handlers := [] }

/-- `Bus.AllHandlers()`. -/
def Bus.AllHandlers (b : Bus) : List Nat :=
  (regsVals b.handlers).foldl (fun acc r => acc ++ r.handlers) []

/-- `Bus.Sent()`. -/
def Bus.Sent (b : Bus) : Nat := b.sent

/-- `NewDeadLetterEvent(event, err, handlers)`: a `DeadLetterEvent` (Go
runtime type `*golang_utils.DeadLetterEvent`) with `TypeName`
`"dead-letter"`, message `err.Error()`, and a data map holding the
original event and the handler slice. -/
def NewDeadLetterEvent (event : Event) (errMsg : String)
    (handlers : List Nat) : Event :=
  Event.mk "*golang_utils.DeadLetterEvent" errMsg "dead-letter"
    [("event", GoVal.vEvent event), ("handlers", GoVal.vHandlers handlers)]
    none ""

/-- The `fmt.Errorf("No handler(s) for event %s found", event.Name())`
message of the delivery-shortfall dead-letter. -/
def noHandlersMsg (e : Event) : String :=
  "No handler(s) for event " ++ e.Name ++ " found"

/-- The interpretation of handler ids: the Go closures a test or caller
registered, as pure functions from the event to an optional error
message. -/
abbrev HandlerEnv := Nat → Event → Option String

/-- State threaded through a `Send`: the bus plus the log of handler
invocations performed so far (handler id, event). -/
structure SendSt where
  bus : Bus
  log : List (Nat × Event)

/-- Intermediate state of one registration's handler fan-out: the global
`b.sent` counter, the per-`Send` success counter `sentCnt`, the
`missedHandlers` slice, the error kept by the `errgroup` (its first
error), and the invocation log. -/
structure RunRes where
  sent : Nat
  cnt : Nat
  missed : List Nat
  err : Option String
  log : List (Nat × Event)

/-- The handler loop of one registration in `Bus.Send`, run in launch
order (one legal schedule of the goroutines; `errgroup.Wait` joins them
all before the dispatcher continues).  On success `b.sent` and `sentCnt`
are incremented; on failure `missedHandlers = missedHandlers[i:]` and the
first error is kept. -/
def runHandlers (henv : HandlerEnv) (e : Event) :
    List Nat → Nat → RunRes → RunRes
  | [], _, st => st
  | h :: rest, i, st =>
    let st1 : RunRes := { st with log := st.log ++ [(h, e)] }
    match henv h e with
    | none =>
        runHandlers henv e rest (i + 1)
          { st1 with sent := st1.sent + 1, cnt := st1.cnt + 1 }
    | some msg =>
        runHandlers henv e rest (i + 1)
          { st1 with
              missed := st1.missed.drop i,
              err := match st1.err with
                     | some m => some m
                     | none => some msg }

/-- The registration loop of `Bus.Send`.  `send` is the recursive
dead-letter send used when a registration's `errgroup` reports an error;
`cnt` is the per-`Send` success counter `sentCnt`. -/
def procRegsF (send : Event → SendSt → Option SendSt) (henv : HandlerEnv)
    (e : Event) : List Registration → Nat → SendSt → Option (SendSt × Nat)
  | [], cnt, st => some (st, cnt)
  | reg :: rest, cnt, st =>
    if ((match reg.event with
         | none => true
         | some p => p.etype = e.etype : Bool)
        && e.Matches reg.filter) then
      let r := runHandlers henv e reg.handlers 0
        { sent := st.bus.sent, cnt := cnt, missed := reg.handlers,
          err := none, log := st.log }
      let st1 : SendSt := { bus := { st.bus with sent := r.sent }, log := r.log }
      match r.err with
      | some msg =>
        match send (NewDeadLetterEvent e msg r.missed) st1 with
        | none => none
        | some st2 => procRegsF send henv e rest r.cnt st2
      | none => procRegsF send henv e rest r.cnt st1
    else procRegsF send henv e rest cnt st

/-- Fuel-indexed `Bus.Send(event)` for a non-nil event: scan every
registration (recursive dead-letter sends get one unit less fuel), then
apply the delivery-shortfall rule: fewer than 2 successes for this call
synthesizes and recursively sends a `"No handler(s) ... found"`
dead-letter with a nil handler slice.  `none` means the fuel did not
suffice. -/
def sendFuel (henv : HandlerEnv) : Nat → Event → SendSt → Option SendSt
  | 0, _, _ => none
  | n + 1, e, st =>
    match procRegsF (sendFuel henv n) henv e (regsVals st.bus.handlers) 0 st with
    | none => none
    | some (st1, cnt) =>
      if cnt < 2 then
        sendFuel henv n (NewDeadLetterEvent e (noHandlersMsg e) []) st1
      else some st1

/-- `Bus.Send` including the leading nil-event guard (`Send(nil)` is a
no-op). -/
def sendTop (henv : HandlerEnv) (fuel : Nat) (oe : Option Event)
    (st : SendSt) : Option SendSt :=
  match oe with
  | none => some st
  | some e => sendFuel henv fuel e st

/-- A Go execution of `Bus.Send` terminates exactly when some fuel bound
suffices. -/
def SendTerminates (henv : HandlerEnv) (e : Event) (st : SendSt) : Prop :=
  ∃ n stOut, sendFuel henv n e st = some stOut

/-- Go runtime type tag of `*TestEvent` (the test helper event type). -/
def testT : String := "*golang_utils.TestEvent"

/-- Go runtime type tag of `*DeadLetterEvent`. -/
def dleT : String := "*golang_utils.DeadLetterEvent"

/-- `newTestEventDetailed(name, msg, nil)` from the tests. -/
def newTestEventDetailed (name msg : String) : Event :=
  Event.mk testT msg name [] none ""

/-- `newEmptyTestEvent()` from the tests. -/
def newEmptyTestEvent : Event := newTestEventDetailed "" ""

/-- `NewEmptyDeadLetterEvent()`. -/
def NewEmptyDeadLetterEvent : Event := Event.mk dleT "" "" [] none ""

/-- The `"suzy"` handlers of `TestFailedSendCapturesMissedEventHandlers`:
fail unless the event is named `"suzy"` and carries the expected
message. -/
def suzyHandler (expected : String) : Event → Option String := fun e =>
  if e.Name ≠ "suzy" then some ("expected suzy event, got " ++ e.Name)
  else if e.Message ≠ expected then
    some ("expected " ++ expected ++ ", got " ++ e.Message)
  else none

/-- Handler environment of `TestFailedSendCapturesMissedEventHandlers`:
id 1 expects `"Reg 1"`, id 2 expects `"Reg 2"`, id 3 is the dead-letter
catch-all (counts its calls and succeeds). -/
def henvC2 : HandlerEnv := fun h e =>
  if h = 1 then suzyHandler "Reg 1" e
  else if h = 2 then suzyHandler "Reg 2" e
  else none

/-- The bus of `TestFailedSendCapturesMissedEventHandlers`: two handlers
under filter `"suzy"` for `*TestEvent`, one catch-all under `"*"` for
`*DeadLetterEvent`. -/
def busC2 : Bus :=
  ((newBus.Register "suzy" (some newEmptyTestEvent) 1).Register
      "suzy" (some newEmptyTestEvent) 2).Register
    "*" (some NewEmptyDeadLetterEvent) 3

/-- The event sent by `TestFailedSendCapturesMissedEventHandlers`. -/
def evC2 : Event := newTestEventDetailed "suzy" "Reg 1"

/-- The registration table `busC2` evaluates to. -/
abbrev tableC2 : List (String × Registration) :=
  [("suzy-*golang_utils.TestEvent",
      { filter := "suzy", event := some newEmptyTestEvent, handlers := [1, 2] }),
   ("*-*golang_utils.DeadLetterEvent",
      { filter := "*", event := some NewEmptyDeadLetterEvent, handlers := [3] })]

/-- Handler environment of the C5 scenario: the single registered handler
(id 1) always succeeds; there is no dead-letter subscriber. -/
def henvC5 : HandlerEnv := fun _ _ => none

/-- The C5 bus: only `"suzy"` → one always-succeeding handler. -/
def busC5 : Bus := newBus.Register "suzy" (some newEmptyTestEvent) 1

/-- The registration table `busC5` evaluates to. -/
abbrev tableC5 : List (String × Registration) :=
  [("suzy-*golang_utils.TestEvent",
      { filter := "suzy", event := some newEmptyTestEvent, handlers := [1] })]

/-- The matching `"suzy"` event sent in the C5 scenario. -/
def evC5 : Event := newTestEventDetailed "suzy" ""

/-- Modelled from the claim's words (C4), as a definition independent of
`Event.Matches`: `"*"` matches everything; a filter beginning with `"!"`
returns false exactly when the name starts with the filter with the `"!"`
stripped; otherwise a plain prefix test. -/
def matchesClaim (name filter : String) : Bool :=
  if filter = "*" then true
  else if strHasPfx filter "!" then !(strHasPfx name (trimLeftBang filter))
  else strHasPfx name filter

/-- On the `TestFailedSendCapturesMissedEventHandlers` bus, a send of any
dead-letter-typed event exhausts every fuel bound: the catch-all is the
only matching registration, its single handler succeeds, so the shortfall
rule (1 < 2) recursively sends yet another dead-letter, forever. -/
lemma dleSendNoneC2 (n : Nat) :
    ∀ (s : Nat) (l : List (Nat × Event)) (e : Event), e.etype = dleT →
      sendFuel henvC2 n e { bus := { handlers := tableC2, sent := s }, log := l } = none := by
  induction n with
  | zero => intro s l e he; rfl
  | succ k ih =>
    intro s l e he
    obtain ⟨t, m, tn, dm, er, d⟩ := e
    simp only [Event.etype] at he
    subst he
    simp [sendFuel, procRegsF, regsVals, tableC2, runHandlers, henvC2,
      newEmptyTestEvent, newTestEventDetailed, NewEmptyDeadLetterEvent,
      testT, dleT, Event.Matches]
    exact ih _ _ _ rfl

/-- `dleSendNoneC2` keyed on the `NewDeadLetterEvent` constructor, so it
rewrites the recursive dead-letter sends directly. -/
lemma dleSendNoneC2A (n s : Nat) (l : List (Nat × Event)) (ev : Event)
    (msg : String) (hs : List Nat) :
    sendFuel henvC2 n (NewDeadLetterEvent ev msg hs)
      { bus := { handlers := tableC2, sent := s }, log := l } = none :=
  dleSendNoneC2 n s l _ rfl

/-- In the `TestFailedSendCapturesMissedEventHandlers` scenario the top
send never completes for any fuel bound: handler 2's failure produces a
dead-letter whose own send diverges. -/
lemma sendNoneC2 (n : Nat) :
    sendFuel henvC2 n evC2 { bus := busC2, log := [] } = none := by
  cases n with
  | zero => rfl
  | succ k =>
    have hb : busC2 = { handlers := tableC2, sent := 0 } := rfl
    rw [hb]
    simp [sendFuel, procRegsF, regsVals, runHandlers, henvC2, suzyHandler,
      evC2, newTestEventDetailed, newEmptyTestEvent, NewEmptyDeadLetterEvent,
      testT, dleT, Event.Matches, Event.Name, Event.Message,
      Event.typeNameField, Event.msgField, Event.etype, dleSendNoneC2A,
      (show strHasPfx "suzy" "!" = false from rfl),
      (show strHasPfx "suzy" "suzy" = true from rfl)]

/-- C2: the claim (and the test `TestFailedSendCapturesMissedEventHandlers`)
asserts that sending `TestEvent{name:"suzy", msg:"Reg 1"}` on a bus with the
two `"suzy"` handlers plus a dead-letter catch-all terminates with the
dead-letter handler invoked once, a one-element missed-handler list, message
`"expected Reg 2, got Reg 1"`, and `Sent() == 2`.  The code disagrees: the
send never completes under any fuel bound — every recursive dead-letter send
reaches exactly one successful handler (the catch-all), which is `< 2`, so
the shortfall rule emits another dead-letter forever — hence none of the
asserted post-conditions is ever observable. -/
theorem c2_failed_send_scenario_diverges :
    ¬ SendTerminates henvC2 evC2 { bus := busC2, log := [] } := by
  rintro ⟨n, stOut, h⟩
  rw [sendNoneC2 n] at h
  exact Option.noConfusion h

/-- On the C5 bus, a send of any dead-letter-typed event exhausts every
fuel bound: nothing matches it (the only registration is for
`*TestEvent`), so 0 < 2 successes and the shortfall rule recurses
forever. -/
lemma dleSendNoneC5 (n : Nat) :
    ∀ (s : Nat) (l : List (Nat × Event)) (e : Event), e.etype = dleT →
      sendFuel henvC5 n e { bus := { handlers := tableC5, sent := s }, log := l } = none := by
  induction n with
  | zero => intro s l e he; rfl
  | succ k ih =>
    intro s l e he
    obtain ⟨t, m, tn, dm, er, d⟩ := e
    simp only [Event.etype] at he
    subst he
    simp [sendFuel, procRegsF, regsVals, tableC5, runHandlers, henvC5,
      newEmptyTestEvent, newTestEventDetailed, testT, dleT, Event.Matches]
    exact ih _ _ _ rfl

/-- `dleSendNoneC5` keyed on the `NewDeadLetterEvent` constructor. -/
lemma dleSendNoneC5A (n s : Nat) (l : List (Nat × Event)) (ev : Event)
    (msg : String) (hs : List Nat) :
    sendFuel henvC5 n (NewDeadLetterEvent ev msg hs)
      { bus := { handlers := tableC5, sent := s }, log := l } = none :=
  dleSendNoneC5 n s l _ rfl

/-- In the C5 scenario the top send never completes for any fuel bound. -/
lemma sendNoneC5 (n : Nat) :
    sendFuel henvC5 n evC5 { bus := busC5, log := [] } = none := by
  cases n with
  | zero => rfl
  | succ k =>
    have hb : busC5 = { handlers := tableC5, sent := 0 } := rfl
    rw [hb]
    simp [sendFuel, procRegsF, regsVals, runHandlers, henvC5,
      evC5, newTestEventDetailed, newEmptyTestEvent,
      testT, dleT, Event.Matches, Event.Name,
      Event.typeNameField, Event.etype, dleSendNoneC5A,
      (show strHasPfx "suzy" "!" = false from rfl),
      (show strHasPfx "suzy" "suzy" = true from rfl)]

/-- C5 (counterexample): the claim says that after sending the `"suzy"`
event on the bus whose only registration is the always-succeeding `"suzy"`
handler, `Sent()` reads 1.  There is no such "afterwards": the send never
returns under any fuel bound (the recursive dead-letter sends match no
registration, get 0 < 2 successes, and recurse forever). -/
theorem c5_counterexample_send_never_returns :
    ¬ SendTerminates henvC5 evC5 { bus := busC5, log := [] } := by
  rintro ⟨n, stOut, h⟩
  rw [sendNoneC5 n] at h
  exact Option.noConfusion h

/-- C5 (amended): sending the matching `"suzy"` event with exactly one
always-succeeding handler and no dead-letter subscriber does trigger a
recursive dead-letter send (1 success < 2), and at the moment of that
recursive send the bus-wide counter `Sent()` reads 1; but `Send` itself
never returns, so no post-call reading of `Sent()` exists. -/
theorem c5_amended_shortfall_dl_send_with_sent_1 (n : Nat) :
    sendFuel henvC5 (n + 1) evC5 { bus := busC5, log := [] } =
      sendFuel henvC5 n (NewDeadLetterEvent evC5 (noHandlersMsg evC5) [])
        { bus := { handlers := tableC5, sent := 1 }, log := [(1, evC5)] }
    ∧ (Bus.mk tableC5 1).Sent = 1 := by
  constructor
  · have hb : busC5 = { handlers := tableC5, sent := 0 } := rfl
    rw [hb]
    simp [sendFuel, procRegsF, regsVals, runHandlers, henvC5,
      evC5, newTestEventDetailed, newEmptyTestEvent,
      testT, dleT, Event.Matches, Event.Name,
      Event.typeNameField, Event.etype,
      (show strHasPfx "suzy" "!" = false from rfl),
      (show strHasPfx "suzy" "suzy" = true from rfl)]
  · rfl

/-- C1: for every (non-nil) call to `Send(event)`, once the registration
scan has produced the per-call success count `cnt`: if `cnt < 2` the bus
synthesizes and recursively sends a `DeadLetterEvent` whose message is
`"No handler(s) for event <name> found"` and whose handler list is nil
(the `"handlers"` data entry is the empty handler slice); if `cnt ≥ 2` no
such shortfall dead-letter is sent and the send returns the scan state. -/
theorem c1_shortfall_rule (henv : HandlerEnv) (n : Nat) (e : Event)
    (st st1 : SendSt) (cnt : Nat)
    (h : procRegsF (sendFuel henv n) henv e (regsVals st.bus.handlers) 0 st =
      some (st1, cnt)) :
    sendFuel henv (n + 1) e st =
      (if cnt < 2 then
        sendFuel henv n (NewDeadLetterEvent e (noHandlersMsg e) []) st1
      else some st1)
    ∧ (NewDeadLetterEvent e (noHandlersMsg e) []).Message = noHandlersMsg e
    ∧ noHandlersMsg e = "No handler(s) for event " ++ e.Name ++ " found"
    ∧ (NewDeadLetterEvent e (noHandlersMsg e) []).Get "handlers" =
        GoVal.vHandlers [] := by
  refine ⟨?_, rfl, rfl, rfl⟩
  simp [sendFuel, h]

/-- Witness for C1 at a concrete input: the empty bus scans to success
count 0 < 2, so the send reduces to the recursive shortfall dead-letter
send. -/
theorem c1_shortfall_rule_witness :
    procRegsF (sendFuel (fun _ _ => none) 0) (fun _ _ => none) evC5
        (regsVals newBus.handlers) 0 { bus := newBus, log := [] } =
      some ({ bus := newBus, log := [] }, 0)
    ∧ (sendFuel (fun _ _ => none) 1 evC5 { bus := newBus, log := [] } =
        (if (0 : Nat) < 2 then
          sendFuel (fun _ _ => none) 0
            (NewDeadLetterEvent evC5 (noHandlersMsg evC5) [])
            { bus := newBus, log := [] }
        else some { bus := newBus, log := [] })
      ∧ (NewDeadLetterEvent evC5 (noHandlersMsg evC5) []).Message = noHandlersMsg evC5
      ∧ noHandlersMsg evC5 = "No handler(s) for event " ++ evC5.Name ++ " found"
      ∧ (NewDeadLetterEvent evC5 (noHandlersMsg evC5) []).Get "handlers" =
          GoVal.vHandlers []) :=
  ⟨rfl, c1_shortfall_rule (fun _ _ => none) 0 evC5 _ _ 0 rfl⟩

/-- Left-cancellation of string concatenation, used for distinctness of
`uniqueName` keys. -/
lemma strAppendCancelLeft (a b c : String) (h : a ++ b = a ++ c) : b = c := by
  cases a with | mk la =>
  cases b with | mk lb =>
  cases c with | mk lc =>
  have h2 : la ++ lb = la ++ lc := congrArg String.data h
  exact congrArg String.mk (List.append_cancel_left h2)

/-- C3: registering twice under the same filter with two (non-nil)
prototypes of the same concrete type `T` merges into exactly one table
entry for `(f, T)` whose handler list is `[h1, h2]` (appended in
registration order); registering under the same filter with prototypes of
two different concrete types yields two distinct entries. -/
theorem c3_registration_merge (f T T2 : String) (h1 h2 : Nat)
    (e1 e2 e3 : Event) (he1 : e1.etype = T) (he2 : e2.etype = T)
    (he3 : e3.etype = T2) (hT : T ≠ T2) :
    ((newBus.Register f (some e1) h1).Register f (some e2) h2).handlers =
      [(f ++ "-" ++ T, { filter := f, event := some e1, handlers := [h1, h2] })]
    ∧ ((newBus.Register f (some e1) h1).Register f (some e3) h2).handlers =
      [(f ++ "-" ++ T, { filter := f, event := some e1, handlers := [h1] }),
       (f ++ "-" ++ T2, { filter := f, event := some e3, handlers := [h2] })] := by
  have hk : f ++ "-" ++ T ≠ f ++ "-" ++ T2 := fun hEq =>
    hT (strAppendCancelLeft (f ++ "-") T T2 hEq)
  constructor
  · simp [Bus.Register, Bus.RegisterHandler, NewRegistration,
      Registration.uniqueName, newBus, lookupReg, appendHandlersAt, he1, he2]
  · simp [Bus.Register, Bus.RegisterHandler, NewRegistration,
      Registration.uniqueName, newBus, lookupReg, appendHandlersAt,
      he1, he3, hk]

/-- Witness for C3 at concrete types `"A"` and `"B"`. -/
theorem c3_registration_merge_witness :
    (Event.mk "A" "" "" [] none "").etype = "A"
    ∧ (Event.mk "A" "x" "" [] none "").etype = "A"
    ∧ (Event.mk "B" "" "" [] none "").etype = "B"
    ∧ ("A" : String) ≠ "B"
    ∧ (((newBus.Register "f" (some (Event.mk "A" "" "" [] none "")) 1).Register
          "f" (some (Event.mk "A" "x" "" [] none "")) 2).handlers =
        [("f" ++ "-" ++ "A",
            { filter := "f", event := some (Event.mk "A" "" "" [] none ""),
              handlers := [1, 2] })]
      ∧ ((newBus.Register "f" (some (Event.mk "A" "" "" [] none "")) 1).Register
          "f" (some (Event.mk "B" "" "" [] none "")) 2).handlers =
        [("f" ++ "-" ++ "A",
            { filter := "f", event := some (Event.mk "A" "" "" [] none ""),
              handlers := [1] }),
         ("f" ++ "-" ++ "B",
            { filter := "f", event := some (Event.mk "B" "" "" [] none ""),
              handlers := [2] })]) :=
  ⟨rfl, rfl, rfl, by decide,
   c3_registration_merge "f" "A" "B" 1 2 _ _ _ rfl rfl rfl (by decide)⟩

/-- C4: `Matches` agrees with the claim's three-way rule on every event
and filter, and on the claim's four concrete examples: `"!foo"` rejects
`"foobar"` and accepts `"barfoo"`; `"foo"` accepts `"foobar"` and rejects
`"barfoo"`. -/
theorem c4_matches_rule (e : Event) (f : String) :
    e.Matches f = matchesClaim e.Name f
    ∧ (Event.mk "T" "" "foobar" [] none "").Matches "!foo" = false
    ∧ (Event.mk "T" "" "barfoo" [] none "").Matches "!foo" = true
    ∧ (Event.mk "T" "" "foobar" [] none "").Matches "foo" = true
    ∧ (Event.mk "T" "" "barfoo" [] none "").Matches "foo" = false := by
  refine ⟨?_, rfl, rfl, rfl, rfl⟩
  unfold Event.Matches matchesClaim
  split_ifs with hstar hbang hpre
  · rfl
  · simp [hpre]
  · simp [hpre]
  · rfl

/-- C6: during a send, a registration contributes nothing — no handler
invocation, no state change, no recursive dead-letter — when its (non-nil)
prototype's concrete type differs from the event's concrete type, or when
the name filter fails: the registration loop on `reg :: rest` equals the
loop on `rest` alone. -/
theorem c6_type_and_name_gate (send : Event → SendSt → Option SendSt)
    (henv : HandlerEnv) (e : Event) (reg : Registration)
    (rest : List Registration) (cnt : Nat) (st : SendSt)
    (h : (∃ p, reg.event = some p ∧ p.etype ≠ e.etype) ∨
      e.Matches reg.filter = false) :
    procRegsF send henv e (reg :: rest) cnt st =
      procRegsF send henv e rest cnt st := by
  rcases h with ⟨p, hp, hne⟩ | hm
  · simp [procRegsF, hp, hne]
  · simp [procRegsF, hm]

/-- Witness for C6: a `*DeadLetterEvent` registration is skipped for a
`*TestEvent` event. -/
theorem c6_type_and_name_gate_witness :
    ((∃ p, (some NewEmptyDeadLetterEvent : Option Event) = some p ∧
        p.etype ≠ evC2.etype) ∨ evC2.Matches "*" = false)
    ∧ procRegsF (fun _ st => some st) henvC2 evC2
        [{ filter := "*", event := some NewEmptyDeadLetterEvent,
            handlers := [9] }] 0 { bus := newBus, log := [] } =
      procRegsF (fun _ st => some st) henvC2 evC2 [] 0
        { bus := newBus, log := [] } :=
  ⟨Or.inl ⟨NewEmptyDeadLetterEvent, rfl, by decide⟩,
   c6_type_and_name_gate _ _ _ _ _ _ _
     (Or.inl ⟨NewEmptyDeadLetterEvent, rfl, by decide⟩)⟩

/-- C7: `Get(key)` on the default event base never fails: it returns the
stored value when the key is present, and the fixed `"???"` sentinel when
it is absent — in particular always the sentinel when the event carries no
data mapping at all. -/
theorem c7_get_total_with_sentinel (e : Event) (key : String) :
    (∀ v, mapGet e.dataMap key = some v → e.Get key = v)
    ∧ (mapGet e.dataMap key = none → e.Get key = GoVal.vStr "???")
    ∧ (∀ (t m tn : String) (er : Option String) (d : String),
        (Event.mk t m tn [] er d).Get key = GoVal.vStr "???") := by
  refine ⟨?_, ?_, fun t m tn er d => rfl⟩
  · intro v hv; simp [Event.Get, hv]
  · intro hv; simp [Event.Get, hv]

/-- Witness for C7 at a concrete event with one data entry. -/
theorem c7_get_total_with_sentinel_witness :
    mapGet (Event.mk "T" "" "" [("a", GoVal.vStr "b")] none "").dataMap "a" =
      some (GoVal.vStr "b")
    ∧ (Event.mk "T" "" "" [("a", GoVal.vStr "b")] none "").Get "a" =
      GoVal.vStr "b"
    ∧ mapGet (Event.mk "T" "" "" [("a", GoVal.vStr "b")] none "").dataMap "zz" =
      none
    ∧ (Event.mk "T" "" "" [("a", GoVal.vStr "b")] none "").Get "zz" =
      GoVal.vStr "???" :=
  ⟨rfl,
   (c7_get_total_with_sentinel (Event.mk "T" "" "" [("a", GoVal.vStr "b")] none "") "a").1 _ rfl,
   rfl,
   (c7_get_total_with_sentinel (Event.mk "T" "" "" [("a", GoVal.vStr "b")] none "") "zz").2.1 rfl⟩

/-- C8: `ClearRegistrations()` empties the table — `Registrations()` and
`AllHandlers()` are empty afterwards — and leaves the cumulative sent
counter unchanged. -/
theorem c8_clear_registrations_frame (b : Bus) :
    b.ClearRegistrations.Registrations = []
    ∧ b.ClearRegistrations.AllHandlers = []
    ∧ b.ClearRegistrations.Sent = b.Sent :=
  ⟨rfl, rfl, rfl⟩

/-- C9: registration identity is the single string
`filter + "-" + typeName` for a non-nil prototype and the bare filter for
a nil prototype; the encoding is not injective: a nil-prototype
registration whose filter is `"a-*golang_utils.TestEvent"` collides with
the `("a", *TestEvent)` registration and the two merge into one entry. -/
theorem c9_unique_name_collision :
    (∀ (f : String) (hs : List Nat) (ev : Event),
        Registration.uniqueName { filter := f, event := some ev, handlers := hs } =
          f ++ "-" ++ ev.etype)
    ∧ (∀ (f : String) (hs : List Nat),
        Registration.uniqueName { filter := f, event := none, handlers := hs } = f)
    ∧ ((newBus.Register "a" (some newEmptyTestEvent) 1).Register
          "a-*golang_utils.TestEvent" none 2).handlers =
        [("a" ++ "-" ++ testT,
            { filter := "a", event := some newEmptyTestEvent,
              handlers := [1, 2] })] :=
  ⟨fun _ _ _ => rfl, fun _ _ => rfl, rfl⟩

/-- C10: `Matches` strips all leading `'!'` characters of an exclusion
filter, not only the first: `"!!foo"` tests exclusion against the prefix
`"foo"`, so name `"foobar"` does not match while name `"!foo-x"` does;
in general a filter `"!" ++ g` excludes exactly the names starting with
`g` with all its leading bangs also stripped. -/
theorem c10_matches_strips_all_bangs :
    (∀ (t m : String) (dm : List (String × GoVal)) (er : Option String)
        (d : String), (Event.mk t m "foobar" dm er d).Matches "!!foo" = false)
    ∧ (∀ (t m : String) (dm : List (String × GoVal)) (er : Option String)
        (d : String), (Event.mk t m "!foo-x" dm er d).Matches "!!foo" = true)
    ∧ trimLeftBang "!!foo" = "foo"
    ∧ (∀ (e : Event) (g : String),
        e.Matches ("!" ++ g) = !(strHasPfx e.Name (trimLeftBang g))) := by
  refine ⟨fun t m dm er d => rfl, fun t m dm er d => rfl, rfl, ?_⟩
  intro e g
  cases g with | mk gd =>
  have hgl : ("!" ++ String.mk gd) = String.mk ('!' :: gd) := rfl
  rw [hgl]
  have hne : String.mk ('!' :: gd) ≠ "*" := by
    intro h
    have h2 : '!' :: gd = ['*'] := congrArg String.data h
    simp at h2
  simp only [Event.Matches, hne, if_false, if_neg hne]
  have hb : strHasPfx (String.mk ('!' :: gd)) "!" = true := by
    simp [strHasPfx, listPfx]
  rw [hb]
  have ht : trimLeftBang (String.mk ('!' :: gd)) = trimLeftBang (String.mk gd) := by
    simp [trimLeftBang, dropBangs]
  simp only [if_true, ht]
  cases hx : strHasPfx e.Name (trimLeftBang (String.mk gd)) <;> simp

end GolangUtils
